import Mathlib

/-!
# Verification of the blender_ramen graph-capture and rendering engine

Shallow embedding of the core of the `blender_ramen` repository
(`src/core/context.rs`, `src/core/project.rs`, `src/core/tree.rs`,
`src/core/zone.rs`) together with proofs about the claims of its
specification.

Modelling conventions:
* Rust `HashMap<K, V>` is embedded as an association list `List (K × V)`
  whose keys stay pairwise distinct under `insertA`.  Lookup, insert,
  remove and in-place update mirror the `HashMap` operations exactly.
  `HashMap` iteration order is *unspecified* in Rust, so every function
  of the source that iterates over a map is embedded in a form that is
  parametrised by the iteration order (a permutation of the entries);
  a deterministic convenience version iterating in insertion order is
  provided for concrete evaluation.
* Rust `String` building through `writeln!` is embedded as appending the
  formatted line (with a trailing `"\n"`) to the accumulated `String`.
* The `NodeSocket` expression arena of `src/core/types.rs` interns a
  string and `python_expr()` returns exactly the interned string
  (`get_expr (intern_expr e) = e`), so a socket is embedded as the pair
  of its expression text and its `is_literal` flag.
-/

namespace BlenderRamen

/-- First value bound to key `k`, mirroring `HashMap::get`.  For maps built
by `insertA` keys are unique, so this is the unique binding. -/
def lookupA {K V : Type} [DecidableEq K] : List (K × V) → K → Option V
  | [], _ => none
  | (k', v) :: t, k => if k = k' then some v else lookupA t k

/-- `HashMap::insert`: replace the binding of `k` if present, otherwise
append a new binding. -/
def insertA {K V : Type} [DecidableEq K] : List (K × V) → K → V → List (K × V)
  | [], k, v => [(k, v)]
  | (k', v') :: t, k, v => if k = k' then (k, v) :: t else (k', v') :: insertA t k v

/-- `HashMap::remove` (the removal part): drop the binding of `k`. -/
def removeA {K V : Type} [DecidableEq K] : List (K × V) → K → List (K × V)
  | [], _ => []
  | (k', v') :: t, k => if k = k' then t else (k', v') :: removeA t k

/-- `HashMap::get_mut` followed by an in-place mutation `f` of the value;
a no-op when the key is absent. -/
def updateA {K V : Type} [DecidableEq K] (m : List (K × V)) (k : K) (f : V → V) :
    List (K × V) :=
  m.map fun p => if p.1 = k then (p.1, f p.2) else p

/-- `names.into_iter().filter_map(|n| map.remove(&n))`: drain the listed
keys out of the map, collecting the values found, in list order. -/
def drainA {K V : Type} [DecidableEq K] : List K → List (K × V) → List V × List (K × V)
  | [], m => ([], m)
  | k :: ks, m =>
    match lookupA m k with
    | some v =>
      let r := drainA ks (removeA m k)
      (v :: r.1, r.2)
    | none => drainA ks m

/-- Rust `str::contains`: `pat` occurs as a contiguous substring of `s`. -/
def strContains (s pat : String) : Bool :=
  (List.range (s.length + 1)).any fun i => pat.toList.isPrefixOf (s.toList.drop i)

/-- Rust `str::starts_with`: `p` is a prefix of `s`. -/
def strStartsWith (s p : String) : Bool :=
  p.toList.isPrefixOf s.toList

-- =====================================================================
-- NodeData (src/core/context.rs, lines 5-86)
-- =====================================================================

/-- `NodeData` of `src/core/context.rs`.  The three `HashMap`s are
association lists (see the conventions above). -/
structure NodeData where
  name : String
  bl_idname : String
  properties : List (String × String)
  inputs : List (Nat × (String × Bool))
  output_defaults : List (Nat × String)
  post_creation_script : String
  custom_links_script : String
  deriving DecidableEq, Inhabited

/-- `NodeData::new`. -/
def NodeData.mkNew (name bl_idname : String) : NodeData :=
  ⟨name, bl_idname, [], [], [], "", ""⟩

/-- `writeln!(code, "{} = tree.nodes.new('{}')", name, bl_idname)`. -/
def newNodeLine (name bl_idname : String) : String :=
  name ++ " = tree.nodes.new('" ++ bl_idname ++ "')\n"

/-- `writeln!(code, "{}.{} = {}", name, k, v)`. -/
def propLine (name k v : String) : String :=
  name ++ "." ++ k ++ " = " ++ v ++ "\n"

/-- `writeln!(code, "{}.inputs[{}].default_value = {}", name, idx, expr)`. -/
def inputDefaultLine (name : String) (idx : Nat) (expr : String) : String :=
  name ++ ".inputs[" ++ Nat.repr idx ++ "].default_value = " ++ expr ++ "\n"

/-- `writeln!(code, "{}.outputs[{}].default_value = {}", name, idx, expr)`. -/
def outputDefaultLine (name : String) (idx : Nat) (expr : String) : String :=
  name ++ ".outputs[" ++ Nat.repr idx ++ "].default_value = " ++ expr ++ "\n"

/-- `writeln!(code, "tree.links.new({}, {}.inputs[{}])", expr, name, idx)`. -/
def linkLine (expr name : String) (idx : Nat) : String :=
  "tree.links.new(" ++ expr ++ ", " ++ name ++ ".inputs[" ++ Nat.repr idx ++ "])\n"

/-- The `default_value` assignments emitted by the loop over `inputs` in
`NodeData::creation_script` (only entries whose flag says literal),
for the given iteration order of the map. -/
def inputAssignLines (name : String) (ins : List (Nat × (String × Bool))) : List String :=
  ins.filterMap fun e =>
    if e.2.2 then some (inputDefaultLine name e.1 e.2.1) else none

/-- The connection statements emitted by the loop over `inputs` in
`NodeData::links_script` (only entries whose flag says reference),
for the given iteration order of the map. -/
def connLines (name : String) (ins : List (Nat × (String × Bool))) : List String :=
  ins.filterMap fun e =>
    if e.2.2 then none else some (linkLine e.2.1 name e.1)

/-- The `default_value` assignments of `creation_script` that stem from a
given slot index. -/
def inputAssignLinesAt (name : String) (ins : List (Nat × (String × Bool)))
    (slot : Nat) : List String :=
  ins.filterMap fun e =>
    if e.1 = slot ∧ e.2.2 = true then some (inputDefaultLine name e.1 e.2.1) else none

/-- The connection statements of `links_script` that stem from a given
slot index. -/
def connLinesAt (name : String) (ins : List (Nat × (String × Bool)))
    (slot : Nat) : List String :=
  ins.filterMap fun e =>
    if e.1 = slot ∧ e.2.2 = false then some (linkLine e.2.1 name e.1) else none

/-- `NodeData::creation_script`, parametrised by the iteration orders of
the three `HashMap`s (`props`, `ins`, `outs` are the entries of
`properties`, `inputs`, `output_defaults` in the order the `for`
loops see them). -/
def NodeData.creationScriptWith (nd : NodeData) (props : List (String × String))
    (ins : List (Nat × (String × Bool))) (outs : List (Nat × String)) : String :=
  if nd.bl_idname = "" then "" else
    newNodeLine nd.name nd.bl_idname
      ++ String.join (props.map fun p => propLine nd.name p.1 p.2)
      ++ String.join (inputAssignLines nd.name ins)
      ++ String.join (outs.map fun o => outputDefaultLine nd.name o.1 o.2)
      ++ nd.post_creation_script

/-- `NodeData::creation_script` with the maps iterated in insertion
order (one admissible iteration order). -/
def NodeData.creationScript (nd : NodeData) : String :=
  nd.creationScriptWith nd.properties nd.inputs nd.output_defaults

/-- `NodeData::links_script`, parametrised by the iteration order of the
`inputs` map. -/
def NodeData.linksScriptWith (nd : NodeData)
    (ins : List (Nat × (String × Bool))) : String :=
  if nd.bl_idname = "" then "" else
    String.join (connLines nd.name ins) ++ nd.custom_links_script

/-- `NodeData::links_script` with `inputs` iterated in insertion order. -/
def NodeData.linksScript (nd : NodeData) : String :=
  nd.linksScriptWith nd.inputs

-- =====================================================================
-- BuildContext (src/core/context.rs, lines 88-165)
-- =====================================================================

/-- `BuildContext`: the flat node registry plus the scope stack.  The
bottom (root) scope is the head of `stack`; the top of the stack is the
last element, mirroring `Vec` push/pop at the back. -/
structure BuildContext where
  nodes : List (String × NodeData)
  stack : List (List String)
  deriving DecidableEq, Inhabited

/-- `BuildContext::new`. -/
def BuildContext.mkNew : BuildContext := ⟨[], [[]]⟩

/-- `self.stack.last_mut()` followed by `current_scope.push(name)`;
no-op on an empty stack (`if let Some`), which never occurs. -/
def pushLastScope : List (List String) → String → List (List String)
  | [], _ => []
  | [l], n => [l ++ [n]]
  | l :: l' :: t, n => l :: pushLastScope (l' :: t) n

/-- `BuildContext::add_node`. -/
def addNode (c : BuildContext) (data : NodeData) : BuildContext :=
  ⟨insertA c.nodes data.name data, pushLastScope c.stack data.name⟩

/-- Fold `add_node` over a creation sequence. -/
def addNodes (c : BuildContext) (ds : List NodeData) : BuildContext :=
  ds.foldl addNode c

/-- `BuildContext::update_property`. -/
def updateProperty (c : BuildContext) (name key val : String) : BuildContext :=
  ⟨updateA c.nodes name (fun nd => { nd with properties := insertA nd.properties key val }),
   c.stack⟩

/-- `BuildContext::update_input`. -/
def updateInput (c : BuildContext) (name : String) (index : Nat) (val : String)
    (is_lit : Bool) : BuildContext :=
  ⟨updateA c.nodes name (fun nd => { nd with inputs := insertA nd.inputs index (val, is_lit) }),
   c.stack⟩

/-- `BuildContext::update_output_default`. -/
def updateOutputDefault (c : BuildContext) (name : String) (index : Nat)
    (val : String) : BuildContext :=
  ⟨updateA c.nodes name (fun nd => { nd with output_defaults := insertA nd.output_defaults index val }),
   c.stack⟩

/-- `BuildContext::update_post_creation`. -/
def updatePostCreation (c : BuildContext) (name script : String) : BuildContext :=
  ⟨updateA c.nodes name (fun nd => { nd with post_creation_script := script }), c.stack⟩

/-- `BuildContext::append_custom_link`. -/
def appendCustomLink (c : BuildContext) (name script : String) : BuildContext :=
  ⟨updateA c.nodes name
     (fun nd => { nd with custom_links_script := nd.custom_links_script ++ script }),
   c.stack⟩

/-- `BuildContext::enter_scope`: push an empty scope on top. -/
def enterScope (c : BuildContext) : BuildContext :=
  ⟨c.nodes, c.stack ++ [[]]⟩

/-- Split a list into its initial part and its last element. -/
def splitLast {α : Type} : List α → Option (List α × α)
  | [] => none
  | [a] => some ([], a)
  | a :: b :: t => (splitLast (b :: t)).map fun r => (a :: r.1, r.2)

/-- `BuildContext::exit_scope`: when more than the root scope is open,
pop the top scope and drain its names out of the registry, returning the
node records in creation order; otherwise a no-op returning the empty
list. -/
def exitScope (c : BuildContext) : List NodeData × BuildContext :=
  if 1 < c.stack.length then
    match splitLast c.stack with
    | some (rest, names) =>
      let r := drainA names c.nodes
      (r.1, ⟨r.2, rest⟩)
    | none => ([], c)  -- unreachable: the stack has length > 1
  else ([], c)

/-- `BuildContext::take_root`: drain the bottom-most scope.  The Rust
code indexes `stack[0]`, which never fails because the stack is created
non-empty and `exit_scope` never pops the last scope; the empty-stack
branch here is unreachable. -/
def takeRoot (c : BuildContext) : List NodeData × BuildContext :=
  match c.stack with
  | [] => ([], c)
  | r :: rest =>
    let res := drainA r c.nodes
    (res.1, ⟨res.2, [] :: rest⟩)

-- =====================================================================
-- NodeSocket (src/core/types.rs) and the repeat zone (src/core/zone.rs)
-- =====================================================================

/-- `NodeSocket` of `src/core/types.rs`: an interned python expression
plus the literal flag (`python_expr()` recovers exactly the interned
text, so the arena indirection is dropped). -/
structure NodeSocketV where
  python_expr : String
  is_literal : Bool
  deriving DecidableEq, Inhabited

/-- `NodeSocket::new_output`. -/
def NodeSocketV.mkOutput (e : String) : NodeSocketV := ⟨e, false⟩

/-- `NodeSocket::new_literal`. -/
def NodeSocketV.mkLiteral (e : String) : NodeSocketV := ⟨e, true⟩

/-- The one-line script that `add_custom_link` (src/core/zone.rs, lines
7-21) formats for a source value handle, a destination node variable and
an input slot index: a `default_value` assignment when the handle is
literal, a connection statement when it is a reference. -/
def customLinkEntry (src : NodeSocketV) (dst_node : String) (index : Nat) : String :=
  if src.is_literal then
    dst_node ++ ".inputs[" ++ Nat.repr index ++ "].default_value = "
      ++ src.python_expr ++ "\n"
  else
    "tree.links.new(" ++ src.python_expr ++ ", " ++ dst_node ++ ".inputs["
      ++ Nat.repr index ++ "])\n"

/-- `add_custom_link` of `src/core/zone.rs`: append the formatted entry
to the destination node's custom-link fragment. -/
def addCustomLink (src : NodeSocketV) (dst_node : String) (index : Nat)
    (c : BuildContext) : BuildContext :=
  appendCustomLink c dst_node (customLinkEntry src dst_node index)

/-- The `SocketDef` data of one tuple-element type: `socket_type()` and
`default_name()` (src/core/types.rs, `impl_socket_def!`). -/
structure SocketDefData where
  socket_type : String
  default_name : String
  deriving DecidableEq, Inhabited

/-- One `"{out}.repeat_items.new('{ty}', '{name}')"` line of
`RepeatItems::setup_items`. -/
def repeatItemLine (out_name : String) (d : SocketDefData) : String :=
  out_name ++ ".repeat_items.new('" ++ d.socket_type ++ "', '" ++ d.default_name ++ "')\n"

/-- `RepeatItems::setup_items` for the arity-3 tuple instance
(`impl_repeat_items!(0 => T0, 1 => T1, 2 => T2)`). -/
def setupItems3 (d0 d1 d2 : SocketDefData) (out_name : String) : String :=
  repeatItemLine out_name d0 ++ repeatItemLine out_name d1 ++ repeatItemLine out_name d2

/-- `RepeatItems::create_inner` for arity 3: reference handles to the
input sentinel's output slots `idx + 1`, i.e. 1, 2, 3. -/
def innerTriple3 (in_name : String) : NodeSocketV × NodeSocketV × NodeSocketV :=
  (NodeSocketV.mkOutput (in_name ++ ".outputs[1]"),
   NodeSocketV.mkOutput (in_name ++ ".outputs[2]"),
   NodeSocketV.mkOutput (in_name ++ ".outputs[3]"))

/-- `RepeatItems::create_output` for arity 3: reference handles to the
output sentinel's output slots `idx`, i.e. 0, 1, 2. -/
def outputTriple3 (out_name : String) : NodeSocketV × NodeSocketV × NodeSocketV :=
  (NodeSocketV.mkOutput (out_name ++ ".outputs[0]"),
   NodeSocketV.mkOutput (out_name ++ ".outputs[1]"),
   NodeSocketV.mkOutput (out_name ++ ".outputs[2]"))

/-- `repeat_zone` of `src/core/zone.rs` at tuple arity 3, acting on an
explicit `BuildContext`.  The two sentinel constructors
(`GeometryNodeRepeatOutput::new`, `GeometryNodeRepeatInput::new`) are the
builders that `build.rs` generates (lines 412-417 of `build.rs`): each
adds `NodeData::new(fresh_name, bl_idname)` to the context; the fresh
uuid-suffixed names are parameters `in_name`/`out_name` here.
`with_iterations` is a generated input setter calling `update_input` on
the iteration-count slot, slot 0 (the spec: "slot 0 is reserved for the
iteration count").  The body is an arbitrary state transformer that also
returns the result tuple.  `repeatZone3Pre` is steps 1-3 of the
construct: create the sentinels, set the iteration count, install the
pairing/declaration post-creation text, and custom-link the initial
elements to the input sentinel's input slots 1, 2, 3. -/
def repeatZone3Pre (d0 d1 d2 : SocketDefData) (in_name out_name : String)
    (iterations : NodeSocketV) (init : NodeSocketV × NodeSocketV × NodeSocketV)
    (c : BuildContext) : BuildContext :=
  let c := addNode c (NodeData.mkNew out_name "GeometryNodeRepeatOutput")
  let c := addNode c (NodeData.mkNew in_name "GeometryNodeRepeatInput")
  let c := updateInput c in_name 0 iterations.python_expr iterations.is_literal
  let post := in_name ++ ".pair_with_output(" ++ out_name ++ ")\n"
      ++ out_name ++ ".repeat_items.clear()\n"
      ++ setupItems3 d0 d1 d2 out_name
  let c := updatePostCreation c in_name post
  let c := addCustomLink init.1 in_name 1 c
  let c := addCustomLink init.2.1 in_name 2 c
  addCustomLink init.2.2 in_name 3 c

/-- Steps 4-8 of the construct: hand the inner tuple to the body, then
custom-link the body's result elements to the output sentinel's input
slots 0, 1, 2 and return the handles to its output slots 0, 1, 2. -/
def repeatZone3 (d0 d1 d2 : SocketDefData) (in_name out_name : String)
    (iterations : NodeSocketV) (init : NodeSocketV × NodeSocketV × NodeSocketV)
    (body : NodeSocketV × NodeSocketV × NodeSocketV → BuildContext →
      BuildContext × (NodeSocketV × NodeSocketV × NodeSocketV))
    (c : BuildContext) : BuildContext × (NodeSocketV × NodeSocketV × NodeSocketV) :=
  let r := body (innerTriple3 in_name)
    (repeatZone3Pre d0 d1 d2 in_name out_name iterations init c)
  let c := addCustomLink r.2.1 out_name 0 r.1
  let c := addCustomLink r.2.2.1 out_name 1 c
  let c := addCustomLink r.2.2.2 out_name 2 c
  (c, outputTriple3 out_name)

-- =====================================================================
-- Linking phase of NodeTree::build (src/core/tree.rs, lines 300-304)
-- =====================================================================

/-- The linking phase of `NodeTree::build`: `links_script` of every
captured node, in creation order, concatenated.  `ords` gives the
iteration order of each node's `inputs` map (zipped positionally). -/
def linkingPhaseWith (nodes : List NodeData)
    (ords : List (List (Nat × (String × Bool)))) : String :=
  String.join (List.zipWith (fun (n : NodeData) o => n.linksScriptWith o) nodes ords)

/-- The linking phase with every map iterated in insertion order. -/
def linkingPhase (nodes : List NodeData) : String :=
  String.join (nodes.map fun n => n.linksScript)

-- =====================================================================
-- BlenderProject (src/core/project.rs)
-- =====================================================================

/-- `ProjectItem` of `src/core/project.rs`. -/
structure ProjectItem where
  name : String
  script : String
  dependencies : List String
  deriving DecidableEq, Inhabited

/-- `generate_script_header` of `src/core/tree.rs`. -/
def generateScriptHeader : String := "import bpy\n"

/-- `BlenderProject`. -/
structure BlenderProject where
  header : String
  items : List ProjectItem
  deriving DecidableEq, Inhabited

/-- `BlenderProject::new`. -/
def BlenderProject.mkNew : BlenderProject := ⟨generateScriptHeader, []⟩

/-- `BlenderProject::add_named_script`. -/
def BlenderProject.addNamedScript (p : BlenderProject) (name script : String) :
    BlenderProject :=
  { p with items := p.items ++ [⟨name, script, []⟩] }

/-- `BlenderProject::add_script`: the unnamed fragment is registered
under the synthetic name `_script_{index}`. -/
def BlenderProject.addScript (p : BlenderProject) (script : String) : BlenderProject :=
  { p with items := p.items ++ [⟨"_script_" ++ Nat.repr p.items.length, script, []⟩] }

/-- The dependency names inferred for one item by substring scanning in
`resolve_dependencies` (src/core/project.rs, lines 117-123): every other
name, not `_script_`-prefixed, occurring in the item's script. -/
def inferredDeps (item : ProjectItem) (all_names : List String) : List String :=
  all_names.filter fun n =>
    !(decide (n = item.name)) && !(strStartsWith n "_script_") && strContains item.script n

/-- The graph/`item_map` construction loop of `resolve_dependencies`,
including the duplicate-name check. -/
def buildGraphAux (all_names : List String) :
    List ProjectItem → List (String × List String) → List (String × ProjectItem) →
    Except String (List (String × List String) × List (String × ProjectItem))
  | [], g, im => .ok (g, im)
  | it :: rest, g, im =>
    let deps := it.dependencies ++ inferredDeps it all_names
    let g' := insertA g it.name deps
    if (lookupA im it.name).isSome then
      .error ("Duplicate project item name: " ++ it.name)
    else
      buildGraphAux all_names rest g' (insertA im it.name it)

/-- The three-state DFS bookkeeping of `resolve_dependencies`. -/
structure DfsState where
  visited : List String
  visiting : List String
  sorted_names : List String
  deriving DecidableEq, Inhabited

/-- `HashSet::remove` on the model of a set as a list. -/
def removeStr : List String → String → List String
  | [], _ => []
  | s :: t, n => if s = n then t else s :: removeStr t n

/-- The `for dep in deps` loop inside `visit`: unknown-dependency check,
then the recursive visit (passed in as `visitF`). -/
def visitDeps (visitF : String → DfsState → Except String DfsState)
    (graph : List (String × List String)) (name : String) :
    List String → DfsState → Except String DfsState
  | [], st => .ok st
  | d :: ds, st =>
    if (lookupA graph d).isNone then
      .error ("Unknown dependency '" ++ d ++ "' referenced by '" ++ name ++ "'")
    else
      match visitF d st with
      | .error e => .error e
      | .ok st' => visitDeps visitF graph name ds st'

/-- `visit` of `resolve_dependencies`: three-state DFS.  The fuel only
bounds the recursion depth; the Rust recursion always terminates because
`visiting` grows on the way down, so any fuel above the number of names
is never exhausted. -/
def visit (graph : List (String × List String)) :
    Nat → String → DfsState → Except String DfsState
  | 0, _, _ => .error "recursion limit exceeded"
  | fuel + 1, name, st =>
    if name ∈ st.visited then .ok st
    else if name ∈ st.visiting then
      .error ("Cyclic dependency detected at '" ++ name ++ "'")
    else
      let st1 : DfsState := { st with visiting := name :: st.visiting }
      let afterDeps :=
        match lookupA graph name with
        | some deps => visitDeps (visit graph fuel) graph name deps st1
        | none => .ok st1
      match afterDeps with
      | .error e => .error e
      | .ok st2 =>
        .ok { visited := name :: st2.visited,
              visiting := removeStr st2.visiting name,
              sorted_names := st2.sorted_names ++ [name] }

/-- The `for item in items { visit(...)? }` driver loop. -/
def visitAll (graph : List (String × List String)) (fuel : Nat) :
    List ProjectItem → DfsState → Except String DfsState
  | [], st => .ok st
  | it :: rest, st =>
    match visit graph fuel it.name st with
    | .error e => .error e
    | .ok st' => visitAll graph fuel rest st'

/-- `resolve_dependencies` of `src/core/project.rs`. -/
def resolveDependencies (items : List ProjectItem) : Except String (List ProjectItem) :=
  match buildGraphAux (items.map (·.name)) items [] [] with
  | .error e => .error e
  | .ok (graph, item_map) =>
    match visitAll graph (items.length + 1) items ⟨[], [], []⟩ with
    | .error e => .error e
    | .ok st => .ok (drainA st.sorted_names item_map).1

/-- `BlenderProject::send`, up to the transport boundary: the script
passed to `send_to_blender`, or `none` when dependency resolution fails
(the Rust code prints the error and returns without sending). -/
def BlenderProject.sendScript (p : BlenderProject) : Option String :=
  match resolveDependencies p.items with
  | .ok its => some (p.header ++ String.join (its.map (·.script)))
  | .error _ => none

-- =====================================================================
-- Concrete fixtures used by witnesses and counterexamples
-- =====================================================================

/-- A context holding one node, as produced by the public constructors. -/
def ctxOneNode : BuildContext :=
  addNode BuildContext.mkNew (NodeData.mkNew "node_a" "TypeA")

/-- The context (C1): one node, then two `update_input` calls targeting
the same node and the same slot index 0. -/
def ctxDoubleUpdate : BuildContext :=
  updateInput
    (updateInput (addNode BuildContext.mkNew (NodeData.mkNew "n" "ShaderNodeMath"))
      "n" 0 "1.0" true)
    "n" 0 "2.0" true

/-- A node with two reference entries, slots 0 and 1 (C5). -/
def ndTwoRefs : NodeData :=
  { NodeData.mkNew "m" "ShaderNodeMath" with
    inputs := [(0, ("a.outputs[0]", false)), (1, ("b.outputs[0]", false))] }

/-- The iteration order that visits slot 1 before slot 0 — an admissible
`HashMap` iteration order for `ndTwoRefs.inputs` (C5). -/
def ordRev : List (Nat × (String × Bool)) :=
  [(1, ("b.outputs[0]", false)), (0, ("a.outputs[0]", false))]

/-- The identity loop body: adds nothing, returns the inner tuple (C7). -/
def rzBodyId : NodeSocketV × NodeSocketV × NodeSocketV → BuildContext →
    BuildContext × (NodeSocketV × NodeSocketV × NodeSocketV) := fun t cc => (cc, t)

/-- `SocketDef` data of `Geo` (C7). -/
def sdGeo : SocketDefData := ⟨"GEOMETRY", "Geometry"⟩

/-- `SocketDef` data of `Float` (C7). -/
def sdFloat : SocketDefData := ⟨"FLOAT", "Value"⟩

/-- `SocketDef` data of `Vector` (C7). -/
def sdVec : SocketDefData := ⟨"VECTOR", "Vector"⟩

/-- A concrete initial tuple (A, B, C) for the repeat construct (C7). -/
def rzInit : NodeSocketV × NodeSocketV × NodeSocketV :=
  (NodeSocketV.mkOutput "src_g.outputs[0]", NodeSocketV.mkOutput "src_f.outputs[0]",
   NodeSocketV.mkLiteral "1.0")

/-- A concrete iteration-count handle (C7). -/
def rzIter : NodeSocketV := NodeSocketV.mkLiteral "5"

/-- A project with one unnamed fragment registered before one named item,
neither referencing the other (C3). -/
def projFragFirst : BlenderProject :=
  (BlenderProject.mkNew.addScript "print(0)\n").addNamedScript "Alpha" "print(1)\n"

/-- A project whose unnamed fragment's script mentions the named item
`Alpha` (C3). -/
def projFragScans : BlenderProject :=
  (BlenderProject.mkNew.addNamedScript "Alpha" "print(1)\n").addScript "call Alpha\n"

-- =====================================================================
-- Lemmas about the association-map layer
-- =====================================================================

section MapLemmas

variable {K V : Type} [DecidableEq K]

@[simp] theorem lookupA_nil (k : K) : lookupA ([] : List (K × V)) k = none := rfl

@[simp] theorem lookupA_cons (k k' : K) (v : V) (t : List (K × V)) :
    lookupA ((k', v) :: t) k = if k = k' then some v else lookupA t k := rfl

theorem lookupA_append_of_none {m₁ : List (K × V)} {k : K} (m₂ : List (K × V))
    (h : lookupA m₁ k = none) : lookupA (m₁ ++ m₂) k = lookupA m₂ k := by
  induction m₁ with
  | nil => simp
  | cons p t ih =>
    obtain ⟨k', v⟩ := p
    by_cases hk : k = k'
    · simp [hk] at h
    · simp only [lookupA_cons, hk, if_false, List.cons_append] at h ⊢
      exact ih h

theorem lookupA_eq_none_iff {m : List (K × V)} {k : K} :
    lookupA m k = none ↔ ∀ p ∈ m, p.1 ≠ k := by
  induction m with
  | nil => simp
  | cons p t ih =>
    obtain ⟨k', v⟩ := p
    by_cases hk : k = k'
    · subst hk; simp
    · simp only [lookupA_cons, hk, if_false, List.mem_cons, ih]
      constructor
      · rintro h p (rfl | hp)
        · exact fun hc => hk hc.symm
        · exact h p hp
      · intro h p hp; exact h p (Or.inr hp)

theorem insertA_of_lookup_none {m : List (K × V)} {k : K} (v : V)
    (h : lookupA m k = none) : insertA m k v = m ++ [(k, v)] := by
  induction m with
  | nil => rfl
  | cons p t ih =>
    obtain ⟨k', v'⟩ := p
    by_cases hk : k = k'
    · simp [hk] at h
    · simp only [lookupA_cons, hk, if_false] at h
      simp [insertA, hk, ih h]

theorem lookupA_mem {m : List (K × V)} {k : K} {v : V}
    (h : lookupA m k = some v) : (k, v) ∈ m := by
  induction m with
  | nil => simp at h
  | cons p t ih =>
    obtain ⟨k', v'⟩ := p
    by_cases hk : k = k'
    · subst hk
      rw [lookupA_cons, if_pos rfl] at h
      injection h with h
      subst h
      exact List.mem_cons_self _ _
    · simp only [lookupA_cons, hk, if_false] at h
      exact List.mem_cons_of_mem _ (ih h)

theorem lookupA_eq_of_mem_nodup {m : List (K × V)} {k : K} {v : V}
    (hnd : (m.map Prod.fst).Nodup) (h : (k, v) ∈ m) : lookupA m k = some v := by
  induction m with
  | nil => simp at h
  | cons p t ih =>
    obtain ⟨k', v'⟩ := p
    simp only [List.map_cons, List.nodup_cons] at hnd
    rcases List.mem_cons.mp h with heq | hmem
    · cases heq
      simp
    · have hk : k ≠ k' := by
        rintro rfl
        exact hnd.1 (List.mem_map.mpr ⟨(k, v), hmem, rfl⟩)
      simp only [lookupA_cons, hk, if_false]
      exact ih hnd.2 hmem

theorem lookupA_updateA_self (m : List (K × V)) (k : K) (f : V → V) :
    lookupA (updateA m k f) k = (lookupA m k).map f := by
  induction m with
  | nil => rfl
  | cons p t ih =>
    obtain ⟨k', v⟩ := p
    by_cases hk : k' = k
    · subst hk
      simp [updateA, ih]
    · have hk2 : k ≠ k' := fun hc => hk hc.symm
      simp only [updateA, List.map_cons, if_neg hk] at ih ⊢
      simp [hk2, ih]

theorem lookupA_updateA_ne (m : List (K × V)) {k k' : K} (f : V → V)
    (h : k ≠ k') : lookupA (updateA m k' f) k = lookupA m k := by
  induction m with
  | nil => rfl
  | cons p t ih =>
    obtain ⟨k'', v⟩ := p
    by_cases hk : k'' = k'
    · subst hk
      simp only [updateA, List.map_cons, if_pos rfl] at ih ⊢
      simp [h, ih]
    · simp only [updateA, List.map_cons, if_neg hk] at ih ⊢
      by_cases hkk : k = k''
      · subst hkk; simp
      · simp [hkk, ih]

theorem updateA_of_lookup_none {m : List (K × V)} {k : K} (f : V → V)
    (h : lookupA m k = none) : updateA m k f = m := by
  rw [lookupA_eq_none_iff] at h
  unfold updateA
  conv_rhs => rw [← List.map_id m]
  apply List.map_congr_left
  intro p hp
  simp [h p hp]

theorem removeA_append_of_none {m₁ : List (K × V)} {k : K} (v : V) (m₂ : List (K × V))
    (h : lookupA m₁ k = none) : removeA (m₁ ++ (k, v) :: m₂) k = m₁ ++ m₂ := by
  induction m₁ with
  | nil => simp [removeA]
  | cons p t ih =>
    obtain ⟨k', v'⟩ := p
    by_cases hk : k = k'
    · simp [hk] at h
    · simp only [lookupA_cons, hk, if_false] at h
      simp [removeA, hk, ih h]

theorem lookupA_append_cons_self {m₁ : List (K × V)} {k : K} (v : V) (m₂ : List (K × V))
    (h : lookupA m₁ k = none) : lookupA (m₁ ++ (k, v) :: m₂) k = some v := by
  rw [lookupA_append_of_none _ h, lookupA_cons, if_pos rfl]

theorem lookupA_append_left {m₁ : List (K × V)} {k : K} {v : V} (m₂ : List (K × V))
    (h : lookupA m₁ k = some v) : lookupA (m₁ ++ m₂) k = some v := by
  induction m₁ with
  | nil => simp at h
  | cons p t ih =>
    obtain ⟨k', v'⟩ := p
    by_cases hk : k = k'
    · simp_all
    · simp only [lookupA_cons, hk, if_false, List.cons_append] at h ⊢
      exact ih h

theorem updateA_updateA (m : List (K × V)) (k : K) (f g : V → V) :
    updateA (updateA m k f) k g = updateA m k (fun v => g (f v)) := by
  unfold updateA
  rw [List.map_map]
  apply List.map_congr_left
  intro p _
  by_cases hk : p.1 = k
  · simp [hk]
  · simp [hk]

theorem drainA_pairs (ds : List (K × V)) (ns : List (K × V))
    (hfresh : ∀ p ∈ ds, lookupA ns p.1 = none)
    (hnd : (ds.map Prod.fst).Nodup) :
    drainA (ds.map Prod.fst) (ns ++ ds) = (ds.map Prod.snd, ns) := by
  induction ds generalizing ns with
  | nil => simp [drainA]
  | cons p t ih =>
    obtain ⟨k, v⟩ := p
    simp only [List.map_cons, List.nodup_cons] at hnd
    have hfk : lookupA ns k = none := hfresh (k, v) (List.mem_cons_self _ _)
    have hlk : lookupA (ns ++ (k, v) :: t) k = some v := lookupA_append_cons_self v t hfk
    have hrm : removeA (ns ++ (k, v) :: t) k = ns ++ t := removeA_append_of_none v t hfk
    have hfresh' : ∀ p ∈ t, lookupA ns p.1 = none :=
      fun p hp => hfresh p (List.mem_cons_of_mem _ hp)
    simp only [List.cons_append, drainA, hlk, hrm, List.map_cons]
    rw [ih ns hfresh' hnd.2]

end MapLemmas

-- =====================================================================
-- Lemmas about the scope stack helpers
-- =====================================================================

theorem pushLastScope_concat (st : List (List String)) (l : List String) (n : String) :
    pushLastScope (st ++ [l]) n = st ++ [l ++ [n]] := by
  induction st with
  | nil => rfl
  | cons a t ih =>
    cases t with
    | nil => cases l <;> rfl
    | cons b t' => simpa [pushLastScope] using ih

theorem splitLast_concat {α : Type} (st : List α) (l : α) :
    splitLast (st ++ [l]) = some (st, l) := by
  induction st with
  | nil => rfl
  | cons a t ih =>
    cases t with
    | nil => simp [splitLast] at ih ⊢
    | cons b t' => simp [splitLast] at ih ⊢; simp [ih]

theorem strJoin_cons (s : String) (l : List String) :
    String.join (s :: l) = s ++ String.join l := by
  have key : ∀ (l : List String) (a : String),
      l.foldl (fun r t => r ++ t) a = a ++ l.foldl (fun r t => r ++ t) "" := by
    intro l
    induction l with
    | nil => intro a; simp [String.append_empty]
    | cons x t ih =>
      intro a
      simp only [List.foldl_cons]
      rw [ih (a ++ x), ih ("" ++ x), String.empty_append, String.append_assoc]
  show (s :: l).foldl (fun r t => r ++ t) "" = s ++ l.foldl (fun r t => r ++ t) ""
  simp only [List.foldl_cons]
  rw [key l ("" ++ s), String.empty_append]

theorem addNodes_concat (ds : List NodeData) (ns : List (String × NodeData))
    (st : List (List String)) (l : List String)
    (hfresh : ∀ d ∈ ds, lookupA ns d.name = none)
    (hnd : (ds.map NodeData.name).Nodup) :
    addNodes ⟨ns, st ++ [l]⟩ ds
      = ⟨ns ++ ds.map (fun d => (d.name, d)), st ++ [l ++ ds.map NodeData.name]⟩ := by
  induction ds generalizing ns l with
  | nil => simp [addNodes]
  | cons d t ih =>
    simp only [List.map_cons, List.nodup_cons] at hnd
    have hd : lookupA ns d.name = none := hfresh d (List.mem_cons_self _ _)
    have hstep : addNode ⟨ns, st ++ [l]⟩ d
        = ⟨ns ++ [(d.name, d)], st ++ [l ++ [d.name]]⟩ := by
      simp [addNode, insertA_of_lookup_none _ hd, pushLastScope_concat]
    have hfresh' : ∀ d' ∈ t, lookupA (ns ++ [(d.name, d)]) d'.name = none := by
      intro d' hd'
      have h1 : lookupA ns d'.name = none := hfresh d' (List.mem_cons_of_mem _ hd')
      rw [lookupA_append_of_none _ h1, lookupA_cons]
      have : d'.name ≠ d.name := by
        intro hc
        exact hnd.1 (hc ▸ List.mem_map.mpr ⟨d', hd', rfl⟩)
      simp [this]
    have := ih (ns ++ [(d.name, d)]) (l ++ [d.name]) hfresh' hnd.2
    simp only [addNodes, List.foldl_cons] at this ⊢
    rw [hstep, this]
    simp

-- =====================================================================
-- Claims
-- =====================================================================

/-- Claim C1.  The claim says the input map stores an ordered *list* of
(expression, is-literal) entries per slot index, and that two
update/append calls on the same node and slot retain both entries.  The
code (`NodeData.inputs : HashMap<usize, (String, bool)>`,
`BuildContext::update_input` calling `insert`) keeps a *single* entry
per slot: after the two calls of `ctxDoubleUpdate`, slot 0 holds only
the second entry `("2.0", true)`; the first entry `("1.0", true)` is
gone.  (The spec's list design is the evident intent: `build.rs`
generates node methods calling `context::append_input`, which does not
exist in `context.rs`.) -/
theorem claim_C1 :
    (lookupA ctxDoubleUpdate.nodes "n").map NodeData.inputs
      = some [(0, ("2.0", true))] := by
  rfl

/-- Claim C8.  Every mutation-by-name call (`update_property`, `update_input`,
`update_output_default`, `update_post_creation`, `append_custom_link`)
whose name is absent from the registry is a silent no-op: it returns the
context completely unchanged (registry and scope stack). -/
theorem claim_C8 (c : BuildContext) (name key val script : String)
    (index : Nat) (is_lit : Bool)
    (h : lookupA c.nodes name = none) :
    updateProperty c name key val = c
    ∧ updateInput c name index val is_lit = c
    ∧ updateOutputDefault c name index val = c
    ∧ updatePostCreation c name script = c
    ∧ appendCustomLink c name script = c := by
  obtain ⟨ns, st⟩ := c
  refine ⟨?_, ?_, ?_, ?_, ?_⟩ <;>
    simp [updateProperty, updateInput, updateOutputDefault, updatePostCreation,
      appendCustomLink, updateA_of_lookup_none _ h]

/-- Witness for C8 at a concrete context and absent name. -/
theorem claim_C8_witness :
    lookupA ctxOneNode.nodes "ghost" = none
    ∧ (updateProperty ctxOneNode "ghost" "k" "v" = ctxOneNode
      ∧ updateInput ctxOneNode "ghost" 2 "v" true = ctxOneNode
      ∧ updateOutputDefault ctxOneNode "ghost" 2 "v" = ctxOneNode
      ∧ updatePostCreation ctxOneNode "ghost" "s" = ctxOneNode
      ∧ appendCustomLink ctxOneNode "ghost" "s" = ctxOneNode) :=
  ⟨by rfl, claim_C8 ctxOneNode "ghost" "k" "v" "s" 2 true (by rfl)⟩

/-- Claim C9.  For a node present in the registry, `update_post_creation`
replaces the whole post-creation fragment (two successive calls are the
second call alone), while `append_custom_link` concatenates onto the
custom-link fragment in call order. -/
theorem claim_C9 (c : BuildContext) (name : String) (d : NodeData) (s₁ s₂ : String)
    (h : lookupA c.nodes name = some d) :
    updatePostCreation (updatePostCreation c name s₁) name s₂
      = updatePostCreation c name s₂
    ∧ lookupA (updatePostCreation (updatePostCreation c name s₁) name s₂).nodes name
      = some { d with post_creation_script := s₂ }
    ∧ lookupA (appendCustomLink (appendCustomLink c name s₁) name s₂).nodes name
      = some { d with custom_links_script := d.custom_links_script ++ s₁ ++ s₂ } := by
  refine ⟨?_, ?_, ?_⟩
  · simp [updatePostCreation, updateA_updateA]
  · simp [updatePostCreation, updateA_updateA, lookupA_updateA_self, h]
  · simp [appendCustomLink, updateA_updateA, lookupA_updateA_self, h,
      String.append_assoc]

/-- Witness for C9 at a concrete context and node. -/
theorem claim_C9_witness :
    lookupA ctxOneNode.nodes "node_a" = some (NodeData.mkNew "node_a" "TypeA")
    ∧ (updatePostCreation (updatePostCreation ctxOneNode "node_a" "p1\n") "node_a" "p2\n"
        = updatePostCreation ctxOneNode "node_a" "p2\n"
      ∧ lookupA (updatePostCreation (updatePostCreation ctxOneNode "node_a" "p1\n")
            "node_a" "p2\n").nodes "node_a"
        = some { NodeData.mkNew "node_a" "TypeA" with post_creation_script := "p2\n" }
      ∧ lookupA (appendCustomLink (appendCustomLink ctxOneNode "node_a" "p1\n")
            "node_a" "p2\n").nodes "node_a"
        = some { NodeData.mkNew "node_a" "TypeA" with
            custom_links_script := (NodeData.mkNew "node_a" "TypeA").custom_links_script
              ++ "p1\n" ++ "p2\n" }) :=
  ⟨by rfl, claim_C9 ctxOneNode "node_a" (NodeData.mkNew "node_a" "TypeA") "p1\n" "p2\n"
    (by rfl)⟩

/-- Claim C10.  `add_custom_link` emits, for a literal source handle, a
`default_value` assignment to the given input slot of the destination
sentinel, and for a reference handle a connection statement; the entry
emitted for a literal handle is never the connection statement (so a
literal element custom-linked by the repeat construct yields no
connection statement). -/
theorem claim_C10 (e dst : String) (i : Nat) :
    customLinkEntry ⟨e, true⟩ dst i
      = dst ++ ".inputs[" ++ Nat.repr i ++ "].default_value = " ++ e ++ "\n"
    ∧ customLinkEntry ⟨e, false⟩ dst i
      = "tree.links.new(" ++ e ++ ", " ++ dst ++ ".inputs[" ++ Nat.repr i ++ "])\n"
    ∧ customLinkEntry ⟨e, true⟩ dst i ≠ customLinkEntry ⟨e, false⟩ dst i := by
  refine ⟨rfl, rfl, fun h => ?_⟩
  have hl := congrArg String.length h
  simp only [customLinkEntry, Bool.false_eq_true, if_true, if_false,
    String.length_append] at hl
  have e₁ : (".inputs[").length = 8 := rfl
  have e₂ : ("].default_value = ").length = 18 := rfl
  have e₃ : ("\n").length = 1 := rfl
  have e₄ : ("tree.links.new(").length = 15 := rfl
  have e₅ : (", ").length = 2 := rfl
  have e₆ : ("])\n").length = 3 := rfl
  rw [e₁, e₂, e₃, e₄, e₅, e₆] at hl
  omega

/-- Claim C2.  For any creation sequence of fresh, distinctly named nodes:
`exit_scope` on the scope entered just before the sequence returns
exactly those node records in creation order and removes them from the
registry, restoring the previous context; `take_root` performs the same
drain when the nodes were added to the (sole) root scope; and
`exit_scope` with only the root scope open is a no-op returning the
empty list and changing nothing. -/
theorem claim_C2 (c : BuildContext) (ds : List NodeData)
    (hstack : c.stack ≠ [])
    (hnd : (ds.map NodeData.name).Nodup)
    (hfresh : ∀ d ∈ ds, lookupA c.nodes d.name = none) :
    exitScope (addNodes (enterScope c) ds) = (ds, c)
    ∧ (c.stack = [[]] → takeRoot (addNodes c ds) = (ds, c))
    ∧ (c.stack.length = 1 → exitScope c = ([], c)) := by
  have hpairs : ∀ p ∈ ds.map (fun d => (d.name, d)), lookupA c.nodes p.1 = none := by
    intro p hp
    obtain ⟨d, hd, rfl⟩ := List.mem_map.mp hp
    exact hfresh d hd
  have hpnd : ((ds.map (fun d => (d.name, d))).map Prod.fst).Nodup := by
    rw [List.map_map]
    exact hnd
  have hdrain := drainA_pairs (ds.map (fun d => (d.name, d))) c.nodes hpairs hpnd
  have hfst : (ds.map (fun d => (d.name, d))).map Prod.fst = ds.map NodeData.name := by
    rw [List.map_map]; rfl
  have hsnd : (ds.map (fun d => (d.name, d))).map Prod.snd = ds := by
    rw [List.map_map]; exact List.map_id ds
  rw [hfst, hsnd] at hdrain
  refine ⟨?_, ?_, ?_⟩
  · have henter : enterScope c = ⟨c.nodes, c.stack ++ [[]]⟩ := rfl
    rw [henter, addNodes_concat ds c.nodes c.stack [] hfresh hnd]
    simp only [List.nil_append]
    have hlen : 1 < (c.stack ++ [ds.map NodeData.name]).length := by
      simp only [List.length_append, List.length_cons, List.length_nil]
      have : 0 < c.stack.length := List.length_pos.mpr hstack
      omega
    simp only [exitScope, if_pos hlen, splitLast_concat, hdrain]
  · intro hroot
    obtain ⟨ns, st⟩ := c
    have hst : st = [[]] := hroot
    subst hst
    have hfresh' : ∀ d ∈ ds, lookupA ns d.name = none := hfresh
    have hdrain' : drainA (ds.map NodeData.name)
        (ns ++ ds.map (fun d => (d.name, d))) = (ds, ns) := hdrain
    rw [show (⟨ns, [[]]⟩ : BuildContext) = ⟨ns, [] ++ [[]]⟩ from rfl,
      addNodes_concat ds ns [] [] hfresh' hnd]
    simp only [takeRoot, List.nil_append, hdrain']
  · intro hlen
    have h2 : ¬ 1 < c.stack.length := by omega
    simp [exitScope, h2]

/-- Witness for C2 at the initial context and a two-node creation
sequence. -/
theorem claim_C2_witness :
    (BuildContext.mkNew.stack ≠ []
      ∧ (([NodeData.mkNew "na" "TA", NodeData.mkNew "nb" "TB"].map NodeData.name).Nodup)
      ∧ (∀ d ∈ [NodeData.mkNew "na" "TA", NodeData.mkNew "nb" "TB"],
          lookupA BuildContext.mkNew.nodes d.name = none))
    ∧ (exitScope (addNodes (enterScope BuildContext.mkNew)
          [NodeData.mkNew "na" "TA", NodeData.mkNew "nb" "TB"])
        = ([NodeData.mkNew "na" "TA", NodeData.mkNew "nb" "TB"], BuildContext.mkNew)
      ∧ (BuildContext.mkNew.stack = [[]] →
          takeRoot (addNodes BuildContext.mkNew
              [NodeData.mkNew "na" "TA", NodeData.mkNew "nb" "TB"])
            = ([NodeData.mkNew "na" "TA", NodeData.mkNew "nb" "TB"], BuildContext.mkNew))
      ∧ (BuildContext.mkNew.stack.length = 1 →
          exitScope BuildContext.mkNew = ([], BuildContext.mkNew))) :=
  ⟨⟨by decide, by decide, by decide⟩,
    claim_C2 BuildContext.mkNew [NodeData.mkNew "na" "TA", NodeData.mkNew "nb" "TB"]
      (by decide) (by decide) (by decide)⟩

/-- Claim C6.  For a node with a non-empty target kind and any admissible
iteration order `ord` of its input map: a slot whose stored entry is
literal contributes its `default_value` assignment to the creation block
and no connection statement of the linking block stems from it; a slot
whose stored entry is a reference contributes its connection statement
to the linking block and no `default_value` assignment of the creation
block stems from it.  (`inputAssignLines`/`connLines` are exactly the
input-slot segments of `creationScriptWith`/`linksScriptWith`.) -/
theorem claim_C6 (nd : NodeData) (ord : List (Nat × (String × Bool)))
    (slot : Nat) (e : String)
    (hnd : (nd.inputs.map Prod.fst).Nodup)
    (hperm : nd.inputs.Perm ord) :
    (lookupA nd.inputs slot = some (e, true) →
      inputDefaultLine nd.name slot e ∈ inputAssignLines nd.name ord
      ∧ connLinesAt nd.name ord slot = [])
    ∧ (lookupA nd.inputs slot = some (e, false) →
      linkLine e nd.name slot ∈ connLines nd.name ord
      ∧ inputAssignLinesAt nd.name ord slot = []) := by
  have huniq : ∀ p ∈ ord, p.1 = slot → lookupA nd.inputs slot = some p.2 := by
    intro p hp hps
    have hmem : p ∈ nd.inputs := hperm.mem_iff.mpr hp
    have : (slot, p.2) ∈ nd.inputs := by
      obtain ⟨p1, p2⟩ := p
      cases hps
      exact hmem
    exact lookupA_eq_of_mem_nodup hnd this
  constructor
  · intro h
    constructor
    · have hmem : (slot, (e, true)) ∈ ord := hperm.mem_iff.mp (lookupA_mem h)
      exact List.mem_filterMap.mpr ⟨(slot, (e, true)), hmem, by simp [inputDefaultLine]⟩
    · apply List.filterMap_eq_nil_iff.mpr
      intro p hp
      by_cases hps : p.1 = slot ∧ p.2.2 = false
      · have := huniq p hp hps.1
        rw [h] at this
        have : p.2 = (e, true) := (Option.some_inj.mp this).symm
        rw [this] at hps
        simp at hps
      · exact if_neg hps
  · intro h
    constructor
    · have hmem : (slot, (e, false)) ∈ ord := hperm.mem_iff.mp (lookupA_mem h)
      exact List.mem_filterMap.mpr ⟨(slot, (e, false)), hmem, by simp [linkLine]⟩
    · apply List.filterMap_eq_nil_iff.mpr
      intro p hp
      by_cases hps : p.1 = slot ∧ p.2.2 = true
      · have := huniq p hp hps.1
        rw [h] at this
        have : p.2 = (e, false) := (Option.some_inj.mp this).symm
        rw [this] at hps
        simp at hps
      · exact if_neg hps

/-- Witness for C6 at a concrete node with one literal and one reference
slot, iterated in reversed order. -/
theorem claim_C6_witness :
    ((([(0, ("1.5", true)), (1, ("o.outputs[0]", false))] :
        List (Nat × (String × Bool))).map Prod.fst).Nodup
      ∧ ([(0, ("1.5", true)), (1, ("o.outputs[0]", false))] :
        List (Nat × (String × Bool))).Perm
          [(1, ("o.outputs[0]", false)), (0, ("1.5", true))])
    ∧ ((lookupA ({ NodeData.mkNew "m" "ShaderNodeMath" with
          inputs := [(0, ("1.5", true)), (1, ("o.outputs[0]", false))] } : NodeData).inputs
            0 = some ("1.5", true) →
        inputDefaultLine "m" 0 "1.5"
          ∈ inputAssignLines "m" [(1, ("o.outputs[0]", false)), (0, ("1.5", true))]
        ∧ connLinesAt "m" [(1, ("o.outputs[0]", false)), (0, ("1.5", true))] 0 = [])
      ∧ (lookupA ({ NodeData.mkNew "m" "ShaderNodeMath" with
          inputs := [(0, ("1.5", true)), (1, ("o.outputs[0]", false))] } : NodeData).inputs
            0 = some ("1.5", false) →
        linkLine "1.5" "m" 0
          ∈ connLines "m" [(1, ("o.outputs[0]", false)), (0, ("1.5", true))]
        ∧ inputAssignLinesAt "m" [(1, ("o.outputs[0]", false)), (0, ("1.5", true))] 0 = [])) :=
  ⟨⟨by decide, by decide⟩,
    claim_C6 { NodeData.mkNew "m" "ShaderNodeMath" with
        inputs := [(0, ("1.5", true)), (1, ("o.outputs[0]", false))] }
      [(1, ("o.outputs[0]", false)), (0, ("1.5", true))] 0 "1.5"
      (by decide) (by decide)⟩

/-- Claim C5, amended.  For every built graph and every admissible iteration
order of each node's input map, the linking phase is, per node in
creation order, the connection statements computed from exactly that
node's reference-flagged input entries (one statement per entry, in the
map's iteration order), followed by that node's custom-link fragment.
The within-node order is the map's iteration order, which Rust's
`HashMap` leaves unspecified — it is *not* guaranteed to be ascending
slot order (see the counterexample). -/
theorem claim_C5 (nodes : List NodeData) (ords : List (List (Nat × (String × Bool))))
    (hperm : List.Forall₂ (fun (n : NodeData) o => n.inputs.Perm o) nodes ords)
    (hid : ∀ n ∈ nodes, n.bl_idname ≠ "") :
    linkingPhaseWith nodes ords
      = String.join (List.zipWith (fun (n : NodeData) o =>
          String.join (connLines n.name o) ++ n.custom_links_script) nodes ords)
    ∧ List.Forall₂ (fun (n : NodeData) o =>
        (connLines n.name o).Perm (connLines n.name n.inputs)) nodes ords := by
  induction hperm with
  | nil => exact ⟨rfl, List.Forall₂.nil⟩
  | @cons n o ns os h t ih =>
    have hidn : n.bl_idname ≠ "" := hid n (List.mem_cons_self _ _)
    have hid' : ∀ m ∈ ns, m.bl_idname ≠ "" :=
      fun m hm => hid m (List.mem_cons_of_mem _ hm)
    obtain ⟨ih1, ih2⟩ := ih hid'
    constructor
    · simp only [linkingPhaseWith, List.zipWith_cons_cons, strJoin_cons] at ih1 ⊢
      rw [NodeData.linksScriptWith, if_neg hidn]
      rw [ih1]
    · exact List.Forall₂.cons ((List.Perm.filterMap _ h).symm) ih2

/-- Counterexample to C5 as stated: for the node `ndTwoRefs` (two
reference entries, slots 0 and 1) the iteration order `ordRev` (slot 1
before slot 0) is an admissible `HashMap` iteration order
(a permutation of the entries), yet the emitted links script is not the
slot-ascending script the claim requires. -/
theorem claim_C5_counterexample :
    ndTwoRefs.inputs.Perm ordRev
    ∧ ndTwoRefs.linksScriptWith ordRev
      ≠ ndTwoRefs.linksScriptWith
          [(0, ("a.outputs[0]", false)), (1, ("b.outputs[0]", false))] := by
  constructor
  · decide
  · decide

/-- Witness for the amended C5 at a concrete one-node graph with a
reversed iteration order. -/
theorem claim_C5_witness :
    (List.Forall₂ (fun (n : NodeData) o => n.inputs.Perm o) [ndTwoRefs] [ordRev]
      ∧ ∀ n ∈ [ndTwoRefs], n.bl_idname ≠ "")
    ∧ (linkingPhaseWith [ndTwoRefs] [ordRev]
        = String.join (List.zipWith (fun (n : NodeData) o =>
            String.join (connLines n.name o) ++ n.custom_links_script)
            [ndTwoRefs] [ordRev])
      ∧ List.Forall₂ (fun (n : NodeData) o =>
          (connLines n.name o).Perm (connLines n.name n.inputs)) [ndTwoRefs] [ordRev]) := by
  have hf : List.Forall₂ (fun (n : NodeData) o => n.inputs.Perm o) [ndTwoRefs] [ordRev] :=
    List.Forall₂.cons (by decide) List.Forall₂.nil
  have hi : ∀ n ∈ [ndTwoRefs], n.bl_idname ≠ "" := by decide
  exact ⟨⟨hf, hi⟩, claim_C5 [ndTwoRefs] [ordRev] hf hi⟩

/-- Claim C7.  For the arity-3 repeat construct with fresh sentinel names and a
body that leaves the two sentinel records untouched: the tuple handed to
the body references the input sentinel's output slots 1, 2, 3 (not
0, 1, 2); the returned tuple references the output sentinel's output
slots 0, 1, 2; the input sentinel carries exactly the 3 custom-link
entries connecting the initial elements to its input slots 1, 2, 3
(slot 0 holding the iteration count in its input map); and the output
sentinel carries exactly the 3 custom-link entries connecting the body's
result elements to its input slots 0, 1, 2. -/
theorem claim_C7 (d0 d1 d2 : SocketDefData) (in_name out_name : String)
    (iterations : NodeSocketV) (init : NodeSocketV × NodeSocketV × NodeSocketV)
    (body : NodeSocketV × NodeSocketV × NodeSocketV → BuildContext →
      BuildContext × (NodeSocketV × NodeSocketV × NodeSocketV))
    (c : BuildContext)
    (hin : lookupA c.nodes in_name = none)
    (hout : lookupA c.nodes out_name = none)
    (hne : in_name ≠ out_name)
    (hbody : ∀ t cc, lookupA ((body t cc).1).nodes in_name = lookupA cc.nodes in_name
      ∧ lookupA ((body t cc).1).nodes out_name = lookupA cc.nodes out_name) :
    innerTriple3 in_name
      = (NodeSocketV.mkOutput (in_name ++ ".outputs[1]"),
         NodeSocketV.mkOutput (in_name ++ ".outputs[2]"),
         NodeSocketV.mkOutput (in_name ++ ".outputs[3]"))
    ∧ (repeatZone3 d0 d1 d2 in_name out_name iterations init body c).2
      = (NodeSocketV.mkOutput (out_name ++ ".outputs[0]"),
         NodeSocketV.mkOutput (out_name ++ ".outputs[1]"),
         NodeSocketV.mkOutput (out_name ++ ".outputs[2]"))
    ∧ lookupA (repeatZone3 d0 d1 d2 in_name out_name iterations init body c).1.nodes in_name
      = some { NodeData.mkNew in_name "GeometryNodeRepeatInput" with
          inputs := [(0, (iterations.python_expr, iterations.is_literal))],
          post_creation_script := in_name ++ ".pair_with_output(" ++ out_name ++ ")\n"
            ++ out_name ++ ".repeat_items.clear()\n" ++ setupItems3 d0 d1 d2 out_name,
          custom_links_script := customLinkEntry init.1 in_name 1
            ++ customLinkEntry init.2.1 in_name 2 ++ customLinkEntry init.2.2 in_name 3 }
    ∧ lookupA (repeatZone3 d0 d1 d2 in_name out_name iterations init body c).1.nodes out_name
      = some { NodeData.mkNew out_name "GeometryNodeRepeatOutput" with
          custom_links_script :=
            customLinkEntry (body (innerTriple3 in_name)
              (repeatZone3Pre d0 d1 d2 in_name out_name iterations init c)).2.1 out_name 0
            ++ customLinkEntry (body (innerTriple3 in_name)
              (repeatZone3Pre d0 d1 d2 in_name out_name iterations init c)).2.2.1 out_name 1
            ++ customLinkEntry (body (innerTriple3 in_name)
              (repeatZone3Pre d0 d1 d2 in_name out_name iterations init c)).2.2.2 out_name 2 } := by
  have hne' : out_name ≠ in_name := fun h => hne h.symm
  have hin2 : ∀ v : NodeData, lookupA (c.nodes ++ [(out_name, v)]) in_name = none := by
    intro v
    rw [lookupA_append_of_none _ hin, lookupA_cons]
    simp [hne, lookupA_nil]
  have hpre_in : lookupA (repeatZone3Pre d0 d1 d2 in_name out_name iterations init c).nodes
      in_name
      = some { NodeData.mkNew in_name "GeometryNodeRepeatInput" with
          inputs := [(0, (iterations.python_expr, iterations.is_literal))],
          post_creation_script := in_name ++ ".pair_with_output(" ++ out_name ++ ")\n"
            ++ out_name ++ ".repeat_items.clear()\n" ++ setupItems3 d0 d1 d2 out_name,
          custom_links_script := customLinkEntry init.1 in_name 1
            ++ customLinkEntry init.2.1 in_name 2 ++ customLinkEntry init.2.2 in_name 3 } := by
    simp only [repeatZone3Pre, addCustomLink, appendCustomLink, updatePostCreation,
      updateInput, addNode, NodeData.mkNew]
    rw [insertA_of_lookup_none _ hout, insertA_of_lookup_none _ (hin2 _)]
    rw [lookupA_updateA_self, lookupA_updateA_self, lookupA_updateA_self,
      lookupA_updateA_self, lookupA_updateA_self]
    rw [lookupA_append_cons_self _ _ (hin2 _)]
    simp [insertA, String.empty_append]
  have hpre_out : lookupA (repeatZone3Pre d0 d1 d2 in_name out_name iterations init c).nodes
      out_name = some (NodeData.mkNew out_name "GeometryNodeRepeatOutput") := by
    simp only [repeatZone3Pre, addCustomLink, appendCustomLink, updatePostCreation,
      updateInput, addNode, NodeData.mkNew]
    rw [insertA_of_lookup_none _ hout, insertA_of_lookup_none _ (hin2 _)]
    rw [lookupA_updateA_ne _ _ hne', lookupA_updateA_ne _ _ hne',
      lookupA_updateA_ne _ _ hne', lookupA_updateA_ne _ _ hne',
      lookupA_updateA_ne _ _ hne']
    exact lookupA_append_left _ (lookupA_append_cons_self _ _ hout)
  refine ⟨rfl, rfl, ?_, ?_⟩
  · simp only [repeatZone3, addCustomLink, appendCustomLink]
    rw [lookupA_updateA_ne _ _ hne, lookupA_updateA_ne _ _ hne,
      lookupA_updateA_ne _ _ hne]
    rw [(hbody _ _).1]
    exact hpre_in
  · simp only [repeatZone3, addCustomLink, appendCustomLink]
    rw [lookupA_updateA_self, lookupA_updateA_self, lookupA_updateA_self]
    rw [(hbody _ _).2, hpre_out]
    simp [NodeData.mkNew, String.empty_append]

/-- Witness for C7: a concrete arity-3 repeat zone with the identity
body in the fresh initial context. -/
theorem claim_C7_witness :
    (lookupA BuildContext.mkNew.nodes "rin" = none
      ∧ lookupA BuildContext.mkNew.nodes "rout" = none
      ∧ ("rin" : String) ≠ "rout")
    ∧ (innerTriple3 "rin"
        = (NodeSocketV.mkOutput ("rin" ++ ".outputs[1]"),
           NodeSocketV.mkOutput ("rin" ++ ".outputs[2]"),
           NodeSocketV.mkOutput ("rin" ++ ".outputs[3]"))
      ∧ (repeatZone3 sdGeo sdFloat sdVec "rin" "rout" rzIter rzInit rzBodyId
            BuildContext.mkNew).2
        = (NodeSocketV.mkOutput ("rout" ++ ".outputs[0]"),
           NodeSocketV.mkOutput ("rout" ++ ".outputs[1]"),
           NodeSocketV.mkOutput ("rout" ++ ".outputs[2]"))
      ∧ lookupA (repeatZone3 sdGeo sdFloat sdVec "rin" "rout" rzIter rzInit rzBodyId
            BuildContext.mkNew).1.nodes "rin"
        = some { NodeData.mkNew "rin" "GeometryNodeRepeatInput" with
            inputs := [(0, (rzIter.python_expr, rzIter.is_literal))],
            post_creation_script := "rin" ++ ".pair_with_output(" ++ "rout" ++ ")\n"
              ++ "rout" ++ ".repeat_items.clear()\n" ++ setupItems3 sdGeo sdFloat sdVec "rout",
            custom_links_script := customLinkEntry rzInit.1 "rin" 1
              ++ customLinkEntry rzInit.2.1 "rin" 2 ++ customLinkEntry rzInit.2.2 "rin" 3 }
      ∧ lookupA (repeatZone3 sdGeo sdFloat sdVec "rin" "rout" rzIter rzInit rzBodyId
            BuildContext.mkNew).1.nodes "rout"
        = some { NodeData.mkNew "rout" "GeometryNodeRepeatOutput" with
            custom_links_script :=
              customLinkEntry (rzBodyId (innerTriple3 "rin")
                (repeatZone3Pre sdGeo sdFloat sdVec "rin" "rout" rzIter rzInit
                  BuildContext.mkNew)).2.1 "rout" 0
              ++ customLinkEntry (rzBodyId (innerTriple3 "rin")
                (repeatZone3Pre sdGeo sdFloat sdVec "rin" "rout" rzIter rzInit
                  BuildContext.mkNew)).2.2.1 "rout" 1
              ++ customLinkEntry (rzBodyId (innerTriple3 "rin")
                (repeatZone3Pre sdGeo sdFloat sdVec "rin" "rout" rzIter rzInit
                  BuildContext.mkNew)).2.2.2 "rout" 2 }) :=
  ⟨⟨rfl, rfl, by decide⟩,
    claim_C7 sdGeo sdFloat sdVec "rin" "rout" rzIter rzInit rzBodyId BuildContext.mkNew
      rfl rfl (by decide) (fun t cc => ⟨rfl, rfl⟩)⟩

/-- Claim C4.  Dependency resolution on three items where A's script contains
B's name (a non-synthetic name), B's script references no other item and
C is unrelated succeeds and orders B before A (result: B, A, C); and on
two items whose scripts reference each other it fails with a cycle
error, in which case `send` passes nothing to the transport step (no
partial concatenation is emitted). -/
theorem claim_C4 (nA sA nB sB nC sC tA tB : String)
    (hab : nA ≠ nB) (hac : nA ≠ nC) (hbc : nB ≠ nC)
    (hpB : strStartsWith nB "_script_" = false)
    (hAB : strContains sA nB = true)
    (hAC : strContains sA nC = false)
    (hBA : strContains sB nA = false)
    (hBC : strContains sB nC = false)
    (hCA : strContains sC nA = false)
    (hCB : strContains sC nB = false)
    (hpA : strStartsWith nA "_script_" = false)
    (hTAB : strContains tA nB = true)
    (hTBA : strContains tB nA = true) :
    resolveDependencies [⟨nA, sA, []⟩, ⟨nB, sB, []⟩, ⟨nC, sC, []⟩]
      = .ok [⟨nB, sB, []⟩, ⟨nA, sA, []⟩, ⟨nC, sC, []⟩]
    ∧ resolveDependencies [⟨nA, tA, []⟩, ⟨nB, tB, []⟩]
      = .error ("Cyclic dependency detected at \'" ++ nA ++ "\'")
    ∧ BlenderProject.sendScript ⟨generateScriptHeader, [⟨nA, tA, []⟩, ⟨nB, tB, []⟩]⟩
      = none := by
  have hg : buildGraphAux [nA, nB, nC] [⟨nA, sA, []⟩, ⟨nB, sB, []⟩, ⟨nC, sC, []⟩] [] []
      = .ok ([(nA, [nB]), (nB, ([] : List String)), (nC, ([] : List String))],
             [(nA, ⟨nA, sA, []⟩), (nB, ⟨nB, sB, []⟩), (nC, ⟨nC, sC, []⟩)]) := by
    simp [buildGraphAux, inferredDeps, insertA, lookupA,
      hab, hab.symm, hac, hac.symm, hbc, hbc.symm,
      hpB, hAB, hAC, hBA, hBC, hCA, hCB]
  have v1 : visit [(nA, [nB]), (nB, ([] : List String)), (nC, ([] : List String))] 4 nA
      ⟨[], [], []⟩ = .ok ⟨[nA, nB], [], [nB, nA]⟩ := by
    simp [visit, visitDeps, lookupA, removeStr,
      show (4 : Nat) = 3 + 1 from rfl, show (3 : Nat) = 2 + 1 from rfl,
      hab, hab.symm, hac, hac.symm, hbc, hbc.symm]
  have v2 : visit [(nA, [nB]), (nB, ([] : List String)), (nC, ([] : List String))] 4 nB
      ⟨[nA, nB], [], [nB, nA]⟩ = .ok ⟨[nA, nB], [], [nB, nA]⟩ := by
    simp [visit, show (4 : Nat) = 3 + 1 from rfl,
      hab, hab.symm, hac, hac.symm, hbc, hbc.symm]
  have v3 : visit [(nA, [nB]), (nB, ([] : List String)), (nC, ([] : List String))] 4 nC
      ⟨[nA, nB], [], [nB, nA]⟩ = .ok ⟨[nC, nA, nB], [], [nB, nA, nC]⟩ := by
    simp [visit, visitDeps, lookupA, removeStr, show (4 : Nat) = 3 + 1 from rfl,
      hab, hab.symm, hac, hac.symm, hbc, hbc.symm]
  have hv : visitAll [(nA, [nB]), (nB, ([] : List String)), (nC, ([] : List String))] 4
      [⟨nA, sA, []⟩, ⟨nB, sB, []⟩, ⟨nC, sC, []⟩] ⟨[], [], []⟩
      = .ok ⟨[nC, nA, nB], [], [nB, nA, nC]⟩ := by
    simp [visitAll, v1, v2, v3]
  have hdr : drainA [nB, nA, nC]
      [(nA, (⟨nA, sA, []⟩ : ProjectItem)), (nB, ⟨nB, sB, []⟩), (nC, ⟨nC, sC, []⟩)]
      = ([⟨nB, sB, []⟩, ⟨nA, sA, []⟩, ⟨nC, sC, []⟩], []) := by
    simp [drainA, lookupA, removeA, hab, hab.symm, hac, hac.symm, hbc, hbc.symm]
  have hres1 : resolveDependencies [⟨nA, sA, []⟩, ⟨nB, sB, []⟩, ⟨nC, sC, []⟩]
      = .ok [⟨nB, sB, []⟩, ⟨nA, sA, []⟩, ⟨nC, sC, []⟩] := by
    simp [resolveDependencies, hg, hv, hdr]
  have hg2 : buildGraphAux [nA, nB] [⟨nA, tA, []⟩, ⟨nB, tB, []⟩] [] []
      = .ok ([(nA, [nB]), (nB, [nA])],
             [(nA, ⟨nA, tA, []⟩), (nB, ⟨nB, tB, []⟩)]) := by
    simp [buildGraphAux, inferredDeps, insertA, lookupA,
      hab, hab.symm, hpA, hpB, hTAB, hTBA]
  have w1 : visit [(nA, [nB]), (nB, [nA])] 3 nA ⟨[], [], []⟩
      = .error ("Cyclic dependency detected at \'" ++ nA ++ "\'") := by
    simp [visit, visitDeps, lookupA, removeStr,
      show (3 : Nat) = 2 + 1 from rfl, show (2 : Nat) = 1 + 1 from rfl,
      hab, hab.symm]
  have hv2 : visitAll [(nA, [nB]), (nB, [nA])] 3 [⟨nA, tA, []⟩, ⟨nB, tB, []⟩] ⟨[], [], []⟩
      = .error ("Cyclic dependency detected at \'" ++ nA ++ "\'") := by
    simp [visitAll, w1]
  have hres2 : resolveDependencies [⟨nA, tA, []⟩, ⟨nB, tB, []⟩]
      = .error ("Cyclic dependency detected at \'" ++ nA ++ "\'") := by
    simp [resolveDependencies, hg2, hv2]
  refine ⟨hres1, hres2, ?_⟩
  simp [BlenderProject.sendScript, hres2]

/-- Witness for C4 at concrete item names and scripts. -/
theorem claim_C4_witness :
    (strContains "uses B\n" "B" = true ∧ strContains "calls B\n" "B" = true
      ∧ strContains "calls A\n" "A" = true)
    ∧ (resolveDependencies
          [⟨"A", "uses B\n", []⟩, ⟨"B", "print\n", []⟩, ⟨"C", "other\n", []⟩]
        = .ok [⟨"B", "print\n", []⟩, ⟨"A", "uses B\n", []⟩, ⟨"C", "other\n", []⟩]
      ∧ resolveDependencies [⟨"A", "calls B\n", []⟩, ⟨"B", "calls A\n", []⟩]
        = .error ("Cyclic dependency detected at \'" ++ "A" ++ "\'")
      ∧ BlenderProject.sendScript
          ⟨generateScriptHeader, [⟨"A", "calls B\n", []⟩, ⟨"B", "calls A\n", []⟩]⟩
        = none) :=
  ⟨⟨by decide, by decide, by decide⟩,
    claim_C4 "A" "uses B\n" "B" "print\n" "C" "other\n" "calls B\n" "calls A\n"
      (by decide) (by decide) (by decide) (by decide) (by decide) (by decide)
      (by decide) (by decide) (by decide) (by decide) (by decide) (by decide)
      (by decide)⟩

/-- Claim C3, amended.  Unnamed fragments are registered as items with the
synthetic name `_script_{index}`; dependency inference never adds a
`_script_`-prefixed name as a dependency target, but the fragments'
scripts are scanned for other items' names like any item's, and the
rendered output is the fixed preamble followed by all items' scripts in
the resolved DFS order — unnamed fragments sit at their
registration-order positions in that order, they are not all appended at
the end. -/
theorem claim_C3 (p : BlenderProject) (its : List ProjectItem)
    (h : resolveDependencies p.items = .ok its) :
    BlenderProject.sendScript p = some (p.header ++ String.join (its.map (·.script)))
    ∧ ∀ item ∈ p.items, ∀ d ∈ inferredDeps item (p.items.map (·.name)),
        strStartsWith d "_script_" = false := by
  constructor
  · simp [BlenderProject.sendScript, h]
  · intro item _ d hd
    simp only [inferredDeps, List.mem_filter] at hd
    cases hpd : strStartsWith d "_script_"
    · rfl
    · rw [hpd] at hd
      simp at hd

/-- Counterexample to C3 as stated: the unnamed fragment of
`projFragScans` is scanned as a dependent (its inferred dependency list
is `["Alpha"]`, not empty), and in `projFragFirst` the unnamed fragment
is emitted *before* the later-registered named item, not appended after
it as the claim requires. -/
theorem claim_C3_counterexample :
    inferredDeps ⟨"_script_1", "call Alpha\n", []⟩ (projFragScans.items.map (·.name))
      = ["Alpha"]
    ∧ BlenderProject.sendScript projFragFirst
      = some "import bpy\nprint(0)\nprint(1)\n"
    ∧ BlenderProject.sendScript projFragFirst
      ≠ some "import bpy\nprint(1)\nprint(0)\n" :=
  ⟨by decide, by decide, by decide⟩

/-- Witness for the amended C3 at a concrete project whose resolution
succeeds. -/
theorem claim_C3_witness :
    resolveDependencies projFragFirst.items
      = .ok [⟨"_script_0", "print(0)\n", []⟩, ⟨"Alpha", "print(1)\n", []⟩]
    ∧ (BlenderProject.sendScript projFragFirst
        = some (projFragFirst.header ++ String.join
            (([⟨"_script_0", "print(0)\n", []⟩,
               ⟨"Alpha", "print(1)\n", []⟩] : List ProjectItem).map (·.script)))
      ∧ ∀ item ∈ projFragFirst.items,
          ∀ d ∈ inferredDeps item (projFragFirst.items.map (·.name)),
            strStartsWith d "_script_" = false) :=
  ⟨by rfl,
    claim_C3 projFragFirst
      [⟨"_script_0", "print(0)\n", []⟩, ⟨"Alpha", "print(1)\n", []⟩] (by rfl)⟩

end BlenderRamen
